import Mathlib

/-!
Verification development for the wvruns cross-country result-import and
season-lifecycle helpers.  The JavaScript sources embedded here are
`src/CrossCountry/firebase-helpers.js` and
`src/CrossCountry/supabase-helpers.js`.  JavaScript numbers are modelled
as rationals (`ℚ`); the special value `NaN` is modelled explicitly where
the code produces and tests it, and arithmetic on parsed decimal values
is carried out through `mkRat` on numerator/denominator pairs (the exact
value of the corresponding JavaScript float expression).  Strings are
processed as their character lists so that every operation is
structurally recursive.  The numeric-string builtins (`parseFloat`,
`parseInt`, `isNaN` after string coercion) are modelled on the plain
decimal grammar `[sign] digits [. digits]` (with leading whitespace
skipping and longest-prefix semantics), which covers every string the
helpers are specified on; exponent, hexadecimal and `Infinity` literals
are outside the model.
-/

namespace Wvruns

/-- Numeric value of a list of decimal digit characters (most significant
first), as used to model JavaScript digit-string parsing. -/
def digitsVal (ds : List Char) : ℕ :=
  ds.foldl (fun n c => 10 * n + (c.toNat - 48)) 0

/-- Model of JavaScript `String.prototype.trim`: drop whitespace from both
ends of a character list. -/
def trimChars (cs : List Char) : List Char :=
  ((cs.dropWhile Char.isWhitespace).reverse.dropWhile Char.isWhitespace).reverse

/-- Model of JavaScript `String.prototype.split` with a one-character
separator: `"a:b:c".split(':') = ["a","b","c"]`, `":".split(':') = ["",""]`. -/
def splitOnChar (sep : Char) : List Char → List (List Char)
  | [] => [[]]
  | c :: rest =>
      if c = sep then [] :: splitOnChar sep rest
      else
        match splitOnChar sep rest with
        | [] => [[c]]
        | g :: gs => (c :: g) :: gs

/-- Model of JavaScript `parseFloat`: skip leading whitespace, read an
optional sign and then the longest prefix matching `digits [. digits]` or
`. digits`; `none` models the `NaN` result when no numeric prefix exists.
The value `int.frac` is the exact rational `(int*10^k + frac) / 10^k`. -/
def jsParseFloat (s : List Char) : Option ℚ :=
  let cs := s.dropWhile Char.isWhitespace
  let neg : Bool := match cs with | '-' :: _ => true | _ => false
  let cs1 : List Char :=
    match cs with
    | '-' :: rest => rest
    | '+' :: rest => rest
    | _ => cs
  let intDs := cs1.takeWhile Char.isDigit
  let rest1 := cs1.dropWhile Char.isDigit
  let fracDs :=
    match rest1 with
    | '.' :: rest2 => rest2.takeWhile Char.isDigit
    | _ => []
  if intDs = [] ∧ fracDs = [] then none
  else
    let mag : ℤ := (digitsVal intDs : ℤ) * 10 ^ fracDs.length + (digitsVal fracDs : ℤ)
    some (mkRat (if neg then -mag else mag) (10 ^ fracDs.length))

/-- Model of JavaScript `parseInt(s, 10)`: skip leading whitespace, read an
optional sign and then the longest prefix of decimal digits; `none` models
the `NaN` result when no digit is present. -/
def jsParseInt (s : List Char) : Option ℤ :=
  let cs := s.dropWhile Char.isWhitespace
  let neg : Bool := match cs with | '-' :: _ => true | _ => false
  let cs1 : List Char :=
    match cs with
    | '-' :: rest => rest
    | '+' :: rest => rest
    | _ => cs
  let intDs := cs1.takeWhile Char.isDigit
  if intDs = [] then none
  else some (if neg then -(digitsVal intDs : ℤ) else (digitsVal intDs : ℤ))

/-- Model of the JavaScript test `!isNaN(str)` for an already-trimmed
string: `Number(str)` is not `NaN` exactly when the string is empty
(`Number("") = 0`) or is entirely `[sign] (digits [. digits] | . digits)`. -/
def isNumericStr (s : List Char) : Bool :=
  let cs1 : List Char :=
    match s with
    | '-' :: rest => rest
    | '+' :: rest => rest
    | _ => s
  let intDs := cs1.takeWhile Char.isDigit
  let rest1 := cs1.dropWhile Char.isDigit
  match s, rest1 with
  | [], _ => true
  | _, [] => decide (intDs ≠ [])
  | _, '.' :: rest2 =>
      decide (rest2.dropWhile Char.isDigit = [] ∧ (intDs ≠ [] ∨ rest2.takeWhile Char.isDigit ≠ []))
  | _, _ => false

/-- JavaScript addition `z + q` of an integer (a product of parsed
minutes/hours with 60/3600) and a parsed decimal `q`, computed exactly on
the fraction representation. -/
def addIntQ (z : ℤ) (q : ℚ) : ℚ := mkRat (z * q.den + q.num) q.den

/-- JavaScript multiplication `q * z` of a parsed decimal and an integer,
computed exactly on the fraction representation. -/
def mulQInt (q : ℚ) (z : ℤ) : ℚ := mkRat (q.num * z) q.den

/-- Model of JavaScript `Math.round`: `⌊q + 1/2⌋` (round half toward
positive infinity), computed by floor division on the reduced fraction. -/
def jsRound (q : ℚ) : ℤ := Int.fdiv (2 * q.num + q.den) (2 * q.den)

/-- Result of `parseTimeToSeconds`: the JavaScript function returns `null`
for a falsy argument, `NaN` for a malformed time string, and otherwise a
number of seconds. -/
inductive TimeValue where
  | null : TimeValue
  | nan : TimeValue
  | num : ℚ → TimeValue
  deriving DecidableEq, Repr

namespace Firebase

/-- `parseTimeToSeconds` from `src/CrossCountry/firebase-helpers.js`
lines 303-331: a falsy (empty) argument returns `null`; a trimmed string
that passes `!isNaN` and has no `:` is returned via `parseFloat`; a string
containing `:` is split into 2 parts (minutes, seconds) or 3 parts (hours,
minutes, seconds); anything else returns `NaN`.  A `NaN` component
propagates through the arithmetic to a `NaN` result. -/
def parseTimeToSeconds (timeStr : String) : TimeValue :=
  if timeStr = "" then .null
  else
    let str := trimChars timeStr.data
    if isNumericStr str ∧ ¬ str.contains ':' then
      match jsParseFloat str with
      | some q => .num q
      | none => .nan
    else if str.contains ':' then
      match splitOnChar ':' str with
      | [p0, p1] =>
          match jsParseInt p0, jsParseFloat p1 with
          | some m, some s => .num (addIntQ (m * 60) s)
          | _, _ => .nan
      | [p0, p1, p2] =>
          match jsParseInt p0, jsParseInt p1, jsParseFloat p2 with
          | some h, some m, some s => .num (addIntQ (h * 3600 + m * 60) s)
          | _, _, _ => .nan
      | _ => .nan
    else .nan

end Firebase

namespace Supabase

/-- `parseTimeToSeconds` from `src/CrossCountry/supabase-helpers.js`
lines 207-235; the function body is line-for-line the same as the
Firebase variant. -/
def parseTimeToSeconds (timeStr : String) : TimeValue :=
  if timeStr = "" then .null
  else
    let str := trimChars timeStr.data
    if isNumericStr str ∧ ¬ str.contains ':' then
      match jsParseFloat str with
      | some q => .num q
      | none => .nan
    else if str.contains ':' then
      match splitOnChar ':' str with
      | [p0, p1] =>
          match jsParseInt p0, jsParseFloat p1 with
          | some m, some s => .num (addIntQ (m * 60) s)
          | _, _ => .nan
      | [p0, p1, p2] =>
          match jsParseInt p0, jsParseInt p1, jsParseFloat p2 with
          | some h, some m, some s => .num (addIntQ (h * 3600 + m * 60) s)
          | _, _, _ => .nan
      | _ => .nan
    else .nan

end Supabase

/-- A raw CSV row as built by `parseCSV`: an association list from header
names to field values, where `none` models JavaScript `null` (an empty or
absent field). -/
abbrev Row : Type := List (String × Option String)

/-- Field access `row[key]`: both an absent key (JavaScript `undefined`)
and a stored `null` come out as `none`. -/
def getF (row : Row) (key : String) : Option String :=
  Option.join (List.lookup key row)

/-- JavaScript truthiness of a string field: `undefined`, `null` and the
empty string are falsy. -/
def fieldTruthy : Option String → Bool
  | none => false
  | some s => !(s == "")

/-- The per-row failure reasons pushed onto `results.errors` by
`bulkInsertResults` (`firebase-helpers.js` lines 416-471), one constructor
per `results.errors.push` site, carrying the 0-based row index (the
message prints it 1-based) and the offending value. -/
inductive RowError where
  | missingRequiredField (rowIndex : ℕ) (fields : List String)
  | invalidTime (rowIndex : ℕ) (raw : String)
  | timeTooLong (rowIndex : ℕ) (seconds : ℚ)
  | invalidDistance (rowIndex : ℕ) (raw : String)
  | invalidPlace (rowIndex : ℕ) (raw : String)
  | invalidGender (rowIndex : ℕ) (raw : String)
  deriving DecidableEq, Repr

/-- A validated row as pushed onto `validRows`: the original string fields
with `meet_slug` stamped and `time`/`distance`/`place`/`gender` replaced by
their converted values. -/
structure ResultRow where
  athlete_name : Option String
  school_slug : Option String
  gender : Option String
  time : Option ℚ
  distance : Option ℚ
  place : Option ℤ
  meet_slug : String
  deriving DecidableEq, Repr

instance {ε α : Type} [DecidableEq ε] [DecidableEq α] : DecidableEq (Except ε α) := fun
  | .error a, .error b =>
      if h : a = b then .isTrue (by rw [h]) else .isFalse (by simp [h])
  | .error _, .ok _ => .isFalse (by simp)
  | .ok _, .error _ => .isFalse (by simp)
  | .ok a, .ok b =>
      if h : a = b then .isTrue (by rw [h]) else .isFalse (by simp [h])

/-- `requiredFields` of `bulkInsertResults` (`firebase-helpers.js`
line 413). -/
def requiredFields : List String := ["athlete_name"]

namespace Firebase

/-- The time conversion block of the Firebase `bulkInsertResults`
(lines 427-442): a truthy `time` field is parsed; a `NaN` parse rejects
the row; the parsed number is stored unchanged (`row.time = parsedTime`)
and a value above 36000 seconds rejects the row.  A falsy field is left
as `null`.  (`isNaN(null)` is false in JavaScript, so a `null` parse
result would flow through; it cannot occur for a truthy field.) -/
def checkTime (i : ℕ) (v : Option String) : Except RowError (Option ℚ) :=
  if fieldTruthy v then
    match parseTimeToSeconds (v.getD "") with
    | .nan => .error (.invalidTime i (v.getD ""))
    | .null => .ok none
    | .num q => if q > 36000 then .error (.timeTooLong i q) else .ok (some q)
  else .ok none

/-- The distance conversion block (lines 444-450): `parseFloat` with a
`NaN` check. -/
def checkDistance (i : ℕ) (v : Option String) : Except RowError (Option ℚ) :=
  if fieldTruthy v then
    match jsParseFloat (v.getD "").data with
    | none => .error (.invalidDistance i (v.getD ""))
    | some q => .ok (some q)
  else .ok none

/-- The place conversion block (lines 452-458): `parseInt` with a `NaN`
check. -/
def checkPlace (i : ℕ) (v : Option String) : Except RowError (Option ℤ) :=
  if fieldTruthy v then
    match jsParseInt (v.getD "").data with
    | none => .error (.invalidPlace i (v.getD ""))
    | some z => .ok (some z)
  else .ok none

/-- The gender validation block (lines 461-468): a truthy value whose
upper-casing is neither `M` nor `F` rejects the row; a truthy valid value
is stored upper-cased; a falsy value is left as it is. -/
def checkGender (i : ℕ) (v : Option String) : Except RowError (Option String) :=
  if fieldTruthy v then
    let u := String.mk ((v.getD "").data.map Char.toUpper)
    if u = "M" ∨ u = "F" then .ok (some u)
    else .error (.invalidGender i (v.getD ""))
  else .ok v

/-- One iteration of the `csvData.forEach` body of `bulkInsertResults`
(lines 416-471): the required-field check short-circuits the row, and each
subsequent failing conversion pushes its reason and returns; a row that
survives every check is pushed onto `validRows` with `meet_slug` stamped. -/
def processRow (meetSlug : String) (i : ℕ) (row : Row) : Except RowError ResultRow :=
  let missingFields := requiredFields.filter (fun f => !fieldTruthy (getF row f))
  if missingFields ≠ [] then .error (.missingRequiredField i missingFields)
  else
    Except.bind (checkTime i (getF row "time")) fun t =>
    Except.bind (checkDistance i (getF row "distance")) fun d =>
    Except.bind (checkPlace i (getF row "place")) fun p =>
    Except.bind (checkGender i (getF row "gender")) fun g =>
    .ok { athlete_name := getF row "athlete_name"
          school_slug := getF row "school_slug"
          gender := g
          time := t
          distance := d
          place := p
          meet_slug := meetSlug }

/-- The `forEach` loop of `bulkInsertResults` over the rows with their
0-based indices, accumulating the pushed errors and the pushed valid rows
in row order. -/
def runRows (meetSlug : String) (i : ℕ) : List Row → List RowError × List ResultRow
  | [] => ([], [])
  | row :: rest =>
      let acc := runRows meetSlug (i + 1) rest
      match processRow meetSlug i row with
      | .error e => (e :: acc.1, acc.2)
      | .ok r => (acc.1, r :: acc.2)

/-- The report object returned by `bulkInsertResults`: on the successful
write path `success` is `validRows.length`, `errors` the accumulated
per-row reasons, and `total = csvData.length`.  `inserted` records the
rows handed to the batched store write. -/
structure BulkReport where
  success : ℕ
  errors : List RowError
  total : ℕ
  inserted : List ResultRow
  deriving DecidableEq, Repr

/-- `bulkInsertResults` from `firebase-helpers.js` lines 405-490, modelled
on the successful-persistence path (the storage write is external; when it
succeeds the function reports `success = validRows.length`). -/
def bulkInsertResults (meetSlug : String) (csvData : List Row) : BulkReport :=
  let acc := runRows meetSlug 0 csvData
  { success := acc.2.length
    errors := acc.1
    total := csvData.length
    inserted := acc.2 }

/-- Removal of one optional leading and one optional trailing double quote
from a field value (`val.trim().replace(/^"|"$/g, '')` in `parseCSV`). -/
def stripQuotes (cs : List Char) : List Char :=
  let l1 := match cs with | '"' :: rest => rest | _ => cs
  match l1.reverse with
  | '"' :: rest => rest.reverse
  | _ => l1

/-- Splitting one raw CSV line into trimmed, unquoted field values
(`line.split(',').map(val => val.trim().replace(/^"|"$/g, ''))`). -/
def parseLine (cs : List Char) : List (List Char) :=
  (splitOnChar ',' cs).map (fun v => stripQuotes (trimChars v))

/-- Building the row object from the headers and the value list
(`row[header] = values[index] || null`): an empty string becomes `null`. -/
def mkRow (headers : List String) (values : List (List Char)) : Row :=
  (headers.zip values).map (fun hv => (hv.1, if hv.2 = [] then none else some (String.mk hv.2)))

/-- The `for` loop of `parseCSV` (lines 376-394) over the lines after the
header: a blank line is skipped, a line whose value count differs from the
header count is skipped with only a `console.warn`, and every other line
becomes a row object. -/
def parseCSVLines (headers : List String) : List (List Char) → List Row
  | [] => []
  | line :: rest =>
      let l := trimChars line
      if l = [] then parseCSVLines headers rest
      else
        let values := parseLine l
        if values.length ≠ headers.length then parseCSVLines headers rest
        else mkRow headers values :: parseCSVLines headers rest

/-- `parseCSV` from `firebase-helpers.js` lines 371-397: trim the text,
split on newlines, skip the header line, and process the remaining lines. -/
def parseCSV (csvText : String) (headers : List String) : List Row :=
  match splitOnChar '\n' (trimChars csvText.data) with
  | [] => []
  | _ :: rest => parseCSVLines headers rest

end Firebase

/-- An athlete record as read back by the lifecycle helpers:
`grad_year` is the graduation year (stored as a number; the code re-parses
it with `parseInt`, the identity on stored integers), `status` and the two
stamps are absent until a bulk transition writes them. -/
structure Athlete where
  name : String
  grad_year : ℤ
  status : Option String := none
  advancedAt : Option String := none
  graduatedAt : Option String := none
  deriving DecidableEq, Repr

/-- The athletes store: push-key (modelled as a numeral id, unique by
construction in Firebase) paired with the record. -/
abbrev Store : Type := List (ℕ × Athlete)

/-- The effect on the store of one
`db.ref(`...athletes/{id}`).update({...})` call: the record at `id` (if
any) has the given fields replaced, every other record is untouched. -/
def updateById (st : Store) (i : ℕ) (f : Athlete → Athlete) : Store :=
  st.map (fun q => if q.1 = i then (q.1, f q.2) else q)

/-- The result object of a bulk lifecycle transition: a success flag, the
count of updated athletes, and their names. -/
structure LifecycleReport where
  success : Bool
  count : ℕ
  names : List String
  deriving DecidableEq, Repr

/-- The academic year function as stated in the specification: with a
0-indexed month, `month >= 7 ? year + 1 : year`. -/
def specAcademicYear (month year : ℤ) : ℤ :=
  if 7 ≤ month then year + 1 else year

/-- `advanceAllAthletes` from `firebase-helpers.js` lines 839-882: compute
the academic year from the current month/year (here explicit parameters,
with `ts` standing for `new Date().toISOString()`), select every athlete
with `grad_year >= academicYear`, and issue one update per selected
athlete decrementing `grad_year` and stamping `advancedAt`.  Returns the
updated store and the report (the early return for an empty selection
produces the same store and count). -/
def advanceAllAthletes (month year : ℤ) (ts : String) (store : Store) :
    Store × LifecycleReport :=
  let academicYear := if 7 ≤ month then year + 1 else year
  let activeAthletes := store.filter (fun p => decide (academicYear ≤ p.2.grad_year))
  let newStore := activeAthletes.foldl
    (fun st p => updateById st p.1
      (fun a => { a with grad_year := a.grad_year - 1, advancedAt := some ts }))
    store
  (newStore,
   { success := true
     count := activeAthletes.length
     names := activeAthletes.map (fun p => p.2.name) })

/-- `graduateAllSeniors` from `firebase-helpers.js` lines 789-832: compute
the academic year the same way, select every athlete with
`grad_year === academicYear`, and issue one update per senior setting
`grad_year` to `academicYear - 1`, stamping `graduatedAt` and setting
`status` to `'graduated'`. -/
def graduateAllSeniors (month year : ℤ) (ts : String) (store : Store) :
    Store × LifecycleReport :=
  let academicYear := if 7 ≤ month then year + 1 else year
  let seniors := store.filter (fun p => decide (p.2.grad_year = academicYear))
  let newStore := seniors.foldl
    (fun st p => updateById st p.1
      (fun a => { a with grad_year := academicYear - 1, graduatedAt := some ts,
                         status := some "graduated" }))
    store
  (newStore,
   { success := true
     count := seniors.length
     names := seniors.map (fun p => p.2.name) })

/-- The classification returned by `getAthleteStatus`
(`firebase-helpers.js` lines 704-750), keeping the fields derived from
`grad_year` and the academic year.  The `daysUntilGraduation` field of the
senior case depends on the wall clock and is outside the model. -/
inductive AthleteStatus where
  | graduated (graduatedYear yearsAgo : ℤ)
  | senior (graduatingYear : ℤ)
  | active (grade : String) (graduatingYear yearsUntilGraduation : ℤ)
  deriving DecidableEq, Repr

/-- The grade label `['FR','SO','JR','SR'][yearsUntilGraduation - 1] ||
'UNKNOWN'` (line 737). -/
def gradeOf (n : ℤ) : String :=
  if n = 1 then "FR"
  else if n = 2 then "SO"
  else if n = 3 then "JR"
  else if n = 4 then "SR"
  else "UNKNOWN"

/-- Whether a classification is the senior case. -/
def AthleteStatus.isSenior : AthleteStatus → Bool
  | .senior _ => true
  | _ => false

/-- The pure classification core of `getAthleteStatus` (lines 714-745):
the academic year is computed inline as in the source, and the athlete is
classified by comparing `grad_year` to it. -/
def getAthleteStatusPure (gradYear month year : ℤ) : AthleteStatus :=
  let academicYear := if 7 ≤ month then year + 1 else year
  if gradYear < academicYear then
    .graduated gradYear (academicYear - gradYear)
  else if gradYear = academicYear then
    .senior gradYear
  else
    .active (gradeOf (gradYear - academicYear)) gradYear (gradYear - academicYear)

/-- Number of occurrences of an id in a list of ids. -/
def idCount (i : ℕ) : List ℕ → ℕ
  | [] => 0
  | j :: rest => idCount i rest + (if j = i then 1 else 0)

lemma idCount_eq_zero {i : ℕ} : ∀ {l : List ℕ}, (∀ j ∈ l, j ≠ i) → idCount i l = 0
  | [], _ => rfl
  | j :: rest, h => by
      have hj : j ≠ i := h j (List.mem_cons_self j rest)
      have hrest : ∀ k ∈ rest, k ≠ i := fun k hk => h k (List.mem_cons_of_mem j hk)
      simp [idCount, hj, idCount_eq_zero hrest]

lemma foldl_updateById (f : Athlete → Athlete) :
    ∀ (L st : Store),
      L.foldl (fun s p => updateById s p.1 f) st
        = st.map (fun q => (q.1, f^[idCount q.1 (L.map Prod.fst)] q.2)) := by
  intro L
  induction L with
  | nil =>
      intro st
      simp [idCount, Function.iterate_zero]
  | cons p L ih =>
      intro st
      rw [List.foldl_cons, ih, updateById, List.map_map]
      refine List.map_congr_left (fun q _ => ?_)
      by_cases hqp : q.1 = p.1
      · have hpq : p.1 = q.1 := hqp.symm
        simp only [Function.comp_apply, if_pos hqp, List.map_cons, idCount, if_pos hpq,
          Function.iterate_succ_apply]
      · have hpq : p.1 ≠ q.1 := fun h => hqp h.symm
        simp only [Function.comp_apply, if_neg hqp, List.map_cons, idCount, if_neg hpq,
          Nat.add_zero]

lemma mem_map_fst_of_mem_filter {pred : ℕ × Athlete → Bool} {store : Store} :
    ∀ j ∈ (store.filter pred).map Prod.fst, j ∈ store.map Prod.fst := by
  intro j hj
  obtain ⟨p, hp, rfl⟩ := List.mem_map.mp hj
  exact List.mem_map.mpr ⟨p, (List.mem_filter.mp hp).1, rfl⟩

lemma idCount_filter (pred : ℕ × Athlete → Bool) :
    ∀ (store : Store), (store.map Prod.fst).Nodup → ∀ q ∈ store,
      idCount q.1 ((store.filter pred).map Prod.fst) = if pred q then 1 else 0 := by
  intro store
  induction store with
  | nil => intro _ q hq; cases hq
  | cons r rest ih =>
      intro hnd q hq
      rw [List.map_cons] at hnd
      have hnd' := List.nodup_cons.mp hnd
      rcases List.mem_cons.mp hq with hqr | hqrest
      · subst hqr
        have hzero : idCount q.1 ((rest.filter pred).map Prod.fst) = 0 := by
          refine idCount_eq_zero (fun j hj => ?_)
          intro hji
          exact hnd'.1 (hji ▸ mem_map_fst_of_mem_filter j hj)
        by_cases hp : pred q
        · simp [List.filter_cons, hp, idCount, hzero]
        · simp [List.filter_cons, hp, hzero]
      · have hq1 : r.1 ≠ q.1 := by
          intro h
          refine hnd'.1 ?_
          rw [h]
          exact List.mem_map.mpr ⟨q, hqrest, rfl⟩
        by_cases hp : pred r
        · simp [List.filter_cons, hp, idCount, hq1, ih hnd'.2 q hqrest]
        · simp [List.filter_cons, hp, ih hnd'.2 q hqrest]

/-- With distinct push keys, issuing one `updateById` per selected athlete
is the same as mapping the update over the selected records in place. -/
lemma filter_foldl_updateById (f : Athlete → Athlete) (pred : ℕ × Athlete → Bool)
    (store : Store) (hnd : (store.map Prod.fst).Nodup) :
    (store.filter pred).foldl (fun s p => updateById s p.1 f) store
      = store.map (fun q => if pred q then (q.1, f q.2) else q) := by
  rw [foldl_updateById]
  refine List.map_congr_left (fun q hq => ?_)
  rw [idCount_filter pred store hnd q hq]
  by_cases h : pred q
  · simp [h]
  · simp [h]

lemma map_fst_map_of_fst_eq (g : ℕ × Athlete → ℕ × Athlete) (hg : ∀ q, (g q).1 = q.1)
    (store : Store) : (store.map g).map Prod.fst = store.map Prod.fst := by
  rw [List.map_map]
  exact List.map_congr_left fun q _ => hg q

lemma truthy_of_parse_num {v : Option String} {q : ℚ}
    (h : Firebase.parseTimeToSeconds (v.getD "") = .num q) : fieldTruthy v = true := by
  rcases v with _ | s
  · rw [Option.getD_none] at h
    simp [Firebase.parseTimeToSeconds] at h
  · by_cases hs : s = ""
    · subst hs
      rw [Option.getD_some] at h
      simp [Firebase.parseTimeToSeconds] at h
    · simp [fieldTruthy, hs]

lemma checkTime_of_parse_num {i : ℕ} {v : Option String} {q : ℚ}
    (h : Firebase.parseTimeToSeconds (v.getD "") = .num q) :
    Firebase.checkTime i v = if q > 36000 then .error (.timeTooLong i q) else .ok (some q) := by
  unfold Firebase.checkTime
  rw [if_pos (truthy_of_parse_num h), h]

lemma processRow_timeTooLong (m : String) (i : ℕ) (row : Row) (q : ℚ)
    (hname : fieldTruthy (getF row "athlete_name") = true)
    (htime : Firebase.parseTimeToSeconds ((getF row "time").getD "") = .num q)
    (hr : q > 36000) :
    Firebase.processRow m i row = .error (.timeTooLong i q) := by
  have hmf : (requiredFields.filter fun f => !fieldTruthy (getF row f)) = [] := by
    simp [requiredFields, hname]
  simp only [Firebase.processRow, hmf]
  rw [if_neg (by simp), checkTime_of_parse_num htime, if_pos hr]
  rfl

lemma processRow_ok_time (m : String) (i : ℕ) (row : Row) (q : ℚ) (r : ResultRow)
    (htime : Firebase.parseTimeToSeconds ((getF row "time").getD "") = .num q)
    (hok : Firebase.processRow m i row = .ok r) : r.time = some q := by
  simp only [Firebase.processRow] at hok
  split at hok
  · exact absurd hok (by simp)
  · rw [checkTime_of_parse_num htime] at hok
    by_cases hr : q > 36000
    · rw [if_pos hr] at hok
      exact absurd hok (by simp [Except.bind])
    · rw [if_neg hr] at hok
      simp only [Except.bind] at hok
      rcases hd : Firebase.checkDistance i (getF row "distance") with e | d <;> rw [hd] at hok
      · exact absurd hok (by simp)
      · simp only [] at hok
        rcases hp : Firebase.checkPlace i (getF row "place") with e | p <;> rw [hp] at hok
        · exact absurd hok (by simp)
        · simp only [] at hok
          rcases hg : Firebase.checkGender i (getF row "gender") with e | g <;> rw [hg] at hok
          · exact absurd hok (by simp)
          · simp only [] at hok
            cases hok
            rfl

lemma runRows_length (m : String) : ∀ (rows : List Row) (i : ℕ),
    (Firebase.runRows m i rows).1.length + (Firebase.runRows m i rows).2.length
      = rows.length := by
  intro rows
  induction rows with
  | nil => intro i; rfl
  | cons row rest ih =>
      intro i
      simp only [Firebase.runRows]
      rcases h : Firebase.processRow m i row with e | r
      · simp only [List.length_cons, List.length]
        rw [Nat.succ_add]
        exact congrArg Nat.succ (ih (i + 1))
      · simp only [List.length_cons, List.length]
        rw [Nat.add_succ]
        exact congrArg Nat.succ (ih (i + 1))

/-- C10: the Firebase and the Supabase `parseTimeToSeconds` are
extensionally equal: on every input they return the same `null`, the same
`NaN`, or the same number of seconds. -/
theorem c10_parseTimeToSeconds_equal :
    ∀ s : String, Firebase.parseTimeToSeconds s = Supabase.parseTimeToSeconds s :=
  fun _ => rfl

/-- C2 (amended): every input row of `bulkInsertResults` contributes
exactly one outcome — either it is accepted into the valid rows or it
contributes exactly one reason to the error list (the first failing check
in the order required-fields, time, distance, place, gender short-circuits
the row); in particular the row is accepted exactly when no reason was
recorded for it, and the pipeline always completes with a full report. -/
theorem c2_one_outcome_per_row (meetSlug : String) (csvData : List Row) :
    (Firebase.bulkInsertResults meetSlug csvData).errors.length
        + (Firebase.bulkInsertResults meetSlug csvData).success
      = (Firebase.bulkInsertResults meetSlug csvData).total := by
  simp only [Firebase.bulkInsertResults]
  exact runRows_length meetSlug csvData 0

/-- C2 counterexample: a row whose `time` and `gender` are both invalid
produces exactly one reason (for `time`), not one per failing field —
`checkGender` would also have rejected the value `X`, but the row never
reaches it. -/
theorem c2_counterexample :
    (Firebase.bulkInsertResults "m"
        [[("athlete_name", some "A"), ("time", some "bogus"), ("gender", some "X")]]).errors
      = [.invalidTime 0 "bogus"]
    ∧ Firebase.checkGender 0 (some "X") = .error (.invalidGender 0 "X") := by
  decide

/-- C3 (amended): a raw CSV line whose column count differs from the
header count is silently dropped by `parseCSV` (only a `console.warn` is
emitted): it yields no row object, so it produces no rejection entry in
the import report, while every other line is still processed. -/
theorem c3_mismatched_rows_dropped :
    (∀ (headers : List String) (lines : List (List Char)),
      Firebase.parseCSVLines headers lines
        = lines.filterMap (fun line =>
            let l := trimChars line
            if l = [] then none
            else
              let values := Firebase.parseLine l
              if values.length = headers.length then some (Firebase.mkRow headers values)
              else none))
    ∧ Firebase.parseCSV "athlete_name,time\nGood,300\nBad,1,2" ["athlete_name", "time"]
        = [[("athlete_name", some "Good"), ("time", some "300")]]
    ∧ (Firebase.bulkInsertResults "m"
          (Firebase.parseCSV "athlete_name,time\nGood,300\nBad,1,2"
            ["athlete_name", "time"])).errors = []
    ∧ (Firebase.bulkInsertResults "m"
          (Firebase.parseCSV "athlete_name,time\nGood,300\nBad,1,2"
            ["athlete_name", "time"])).total = 1 := by
  refine ⟨fun headers lines => ?_, by decide, by decide, by decide⟩
  induction lines with
  | nil => rfl
  | cons line rest ih =>
      simp only [Firebase.parseCSVLines, List.filterMap_cons]
      by_cases hblank : trimChars line = []
      · simp [hblank, ih]
      · by_cases hlen : (Firebase.parseLine (trimChars line)).length = headers.length
        · simp [hblank, hlen, ih]
        · simp [hblank, hlen, ih]

/-- C3 counterexample: in a batch whose second data line has 3 columns
against a 2-column header, the import produces no rejection at all for
that line (the report's error list is empty and its total counts only the
surviving row), instead of a `ColumnCountMismatch` rejection; the other
row is still processed. -/
theorem c3_counterexample :
    Firebase.parseCSV "athlete_name,time\nGood,300\nBad,1,2" ["athlete_name", "time"]
      = [[("athlete_name", some "Good"), ("time", some "300")]]
    ∧ (Firebase.bulkInsertResults "m"
          (Firebase.parseCSV "athlete_name,time\nGood,300\nBad,1,2"
            ["athlete_name", "time"]))
        = { success := 1, errors := [], total := 1,
            inserted := [{ athlete_name := some "Good", school_slug := none, gender := none,
                           time := some (mkRat 300 1), distance := none, place := none,
                           meet_slug := "m" }] } := by
  decide

/-- C8: `parseTimeToSeconds` maps `18:30.45` to `1110.45` seconds and
`1:02:03` to `3723` seconds, and fails with `NaN` on `bogus`; and a row
whose time parses to a value above 36000 seconds is rejected by the
pipeline with the too-long reason rather than silently clamped. -/
theorem c8_duration_examples (m : String) (i : ℕ) (row : Row) (q : ℚ)
    (hname : fieldTruthy (getF row "athlete_name") = true)
    (htime : Firebase.parseTimeToSeconds ((getF row "time").getD "") = .num q)
    (hr : q > 36000) :
    Firebase.parseTimeToSeconds "18:30.45" = .num 1110.45
    ∧ Firebase.parseTimeToSeconds "1:02:03" = .num 3723
    ∧ Firebase.parseTimeToSeconds "bogus" = .nan
    ∧ Firebase.processRow m i row = .error (.timeTooLong i q) := by
  refine ⟨?_, by decide, by decide, processRow_timeTooLong m i row q hname htime hr⟩
  have h : Firebase.parseTimeToSeconds "18:30.45" = .num (mkRat 22209 20) := by decide
  rw [h, TimeValue.num.injEq, Rat.mkRat_eq_div]
  norm_num

/-- C8 witness: a row with time `11:00:00` (39600 seconds) is rejected as
too long. -/
theorem c8_witness :
    Firebase.processRow "m" 0 [("athlete_name", some "A"), ("time", some "11:00:00")]
      = .error (.timeTooLong 0 39600) :=
  (c8_duration_examples "m" 0 [("athlete_name", some "A"), ("time", some "11:00:00")]
    39600 (by decide) (by decide) (by decide)).2.2.2

/-- C9: a row with a falsy `athlete_name` is rejected with the
missing-required-field reason and undergoes no further field checks; in a
3-row batch whose second row has an empty `athlete_name` (and even an
invalid time, which is never reached), exactly 2 rows are accepted and
exactly 1 is rejected with that reason. -/
theorem c9_missing_required_field (meetSlug : String) (i : ℕ) (row : Row)
    (h : fieldTruthy (getF row "athlete_name") = false) :
    Firebase.processRow meetSlug i row = .error (.missingRequiredField i ["athlete_name"])
    ∧ Firebase.bulkInsertResults "meet-a"
        [[("athlete_name", some "Alice")],
         [("athlete_name", some ""), ("time", some "bogus")],
         [("athlete_name", some "Carl")]]
      = { success := 2, errors := [.missingRequiredField 1 ["athlete_name"]], total := 3,
          inserted := [{ athlete_name := some "Alice", school_slug := none, gender := none,
                         time := none, distance := none, place := none, meet_slug := "meet-a" },
                       { athlete_name := some "Carl", school_slug := none, gender := none,
                         time := none, distance := none, place := none,
                         meet_slug := "meet-a" }] } := by
  refine ⟨?_, by decide⟩
  have hmf : (requiredFields.filter fun f => !fieldTruthy (getF row f)) = ["athlete_name"] := by
    simp [requiredFields, h]
  simp only [Firebase.processRow, hmf]
  rw [if_pos (by simp)]

/-- C9 witness: a single row whose `athlete_name` is the empty string is
rejected with the missing-required-field reason. -/
theorem c9_witness :
    Firebase.processRow "m" 5 [("athlete_name", some "")]
      = .error (.missingRequiredField 5 ["athlete_name"]) :=
  (c9_missing_required_field "m" 5 [("athlete_name", some "")] (by decide)).1

/-- C7 (amended): `parseTimeToSeconds` returns `null` exactly on the
empty string (an empty input is not a `NaN` failure); a string containing
`:` whose part count is not 2 or 3 fails with `NaN`, as does a colon-free
string that is not numeric; but a successfully parsed value may be
negative — a bare negative number such as `-5` is returned as is. -/
theorem c7_parse_totality :
    (∀ s : String, Firebase.parseTimeToSeconds s = .null ↔ s = "")
    ∧ (∀ s : String, s ≠ "" →
        (trimChars s.data).contains ':' = true →
        (splitOnChar ':' (trimChars s.data)).length ≠ 2 →
        (splitOnChar ':' (trimChars s.data)).length ≠ 3 →
        Firebase.parseTimeToSeconds s = .nan)
    ∧ (∀ s : String, s ≠ "" →
        isNumericStr (trimChars s.data) = false →
        (trimChars s.data).contains ':' = false →
        Firebase.parseTimeToSeconds s = .nan)
    ∧ Firebase.parseTimeToSeconds "-5" = .num (-5) := by
  refine ⟨fun s => ?_, fun s hs hcont h2 h3 => ?_, fun s hs hnum hcont => ?_, by decide⟩
  · constructor
    · intro h
      by_cases hs : s = ""
      · exact hs
      · exfalso
        simp only [Firebase.parseTimeToSeconds, if_neg hs] at h
        repeat' split at h
        all_goals simp at h
    · intro h
      subst h
      simp [Firebase.parseTimeToSeconds]
  · simp only [Firebase.parseTimeToSeconds, if_neg hs]
    rw [if_neg (fun hand => hand.2 hcont), if_pos hcont]
    split
    · rename_i heq
      exact absurd (congrArg List.length heq) (by simpa using h2)
    · rename_i heq
      exact absurd (congrArg List.length heq) (by simpa using h3)
    · rfl
  · simp only [Firebase.parseTimeToSeconds, if_neg hs]
    rw [if_neg (fun hand => by rw [hnum] at hand; exact Bool.false_ne_true hand.1),
      if_neg (fun hc => by rw [hcont] at hc; exact Bool.false_ne_true hc)]

/-- C7 witness: a four-part string fails with `NaN`. -/
theorem c7_witness : Firebase.parseTimeToSeconds "1:2:3:4" = .nan :=
  c7_parse_totality.2.1 "1:2:3:4" (by decide) (by decide) (by decide) (by decide)

/-- C7 counterexample: `parseTimeToSeconds "-5"` succeeds with the
negative value `-5` instead of failing, and the empty string yields
`null`, not a `MalformedDuration` failure — so not every input either
fails or yields a non-negative number. -/
theorem c7_counterexample :
    Firebase.parseTimeToSeconds "-5" = .num (-5)
    ∧ ((-5 : ℚ) < 0)
    ∧ Firebase.parseTimeToSeconds "" = .null := by
  decide

/-- C1 (amended): the Firebase `bulkInsertResults` stores the parsed
seconds of an accepted row exactly as parsed (`row.time = parsedTime`,
line 435); no 2-decimal rounding is applied anywhere on this path. -/
theorem c1_stored_time (meetSlug : String) (i : ℕ) (row : Row) (q : ℚ) (r : ResultRow)
    (htime : Firebase.parseTimeToSeconds ((getF row "time").getD "") = .num q)
    (hok : Firebase.processRow meetSlug i row = .ok r) :
    r.time = some q :=
  processRow_ok_time meetSlug i row q r htime hok

/-- C1 witness: a row with time `300` is stored with exactly 300
seconds. -/
theorem c1_witness :
    ({ athlete_name := some "A", school_slug := none, gender := none,
       time := some (mkRat 300 1), distance := none, place := none,
       meet_slug := "m" } : ResultRow).time = some (mkRat 300 1) :=
  c1_stored_time "m" 0 [("athlete_name", some "A"), ("time", some "300")] (mkRat 300 1)
    { athlete_name := some "A", school_slug := none, gender := none,
      time := some (mkRat 300 1), distance := none, place := none, meet_slug := "m" }
    (by decide) (by decide)

/-- C1 counterexample: a row with time `0.005` is accepted by the
Firebase `bulkInsertResults` and stored with time `1/200 = 0.005`,
whereas the claimed stored value — the parsed seconds rounded to
2 decimal places, `round(seconds*100)/100` (here `jsRound`/`mulQInt`,
the models of `Math.round` and multiplication) — is `1/100 = 0.01`: the
stored value is not the rounded value. -/
theorem c1_counterexample :
    (Firebase.bulkInsertResults "m"
        [[("athlete_name", some "A"), ("time", some "0.005")]]).inserted
      = [{ athlete_name := some "A", school_slug := none, gender := none,
           time := some (mkRat 1 200), distance := none, place := none, meet_slug := "m" }]
    ∧ mkRat (jsRound (mulQInt (mkRat 1 200) 100)) 100 = mkRat 1 100
    ∧ mkRat 1 200 ≠ mkRat 1 100 := by
  decide

lemma advance_eq_map (month year : ℤ) (ts : String) (store : Store)
    (hnd : (store.map Prod.fst).Nodup) :
    (advanceAllAthletes month year ts store).1
      = store.map (fun p =>
          if specAcademicYear month year ≤ p.2.grad_year then
            (p.1, { p.2 with grad_year := p.2.grad_year - 1, advancedAt := some ts })
          else p) := by
  have h := filter_foldl_updateById
    (fun a => { a with grad_year := a.grad_year - 1, advancedAt := some ts })
    (fun p => decide ((if 7 ≤ month then year + 1 else year) ≤ p.2.grad_year)) store hnd
  simp only [advanceAllAthletes]
  rw [h]
  refine List.map_congr_left fun q _ => ?_
  simp only [specAcademicYear, decide_eq_true_eq]

lemma graduate_eq_map (month year : ℤ) (ts : String) (store : Store)
    (hnd : (store.map Prod.fst).Nodup) :
    (graduateAllSeniors month year ts store).1
      = store.map (fun p =>
          if p.2.grad_year = specAcademicYear month year then
            (p.1, { p.2 with grad_year := specAcademicYear month year - 1,
                             graduatedAt := some ts, status := some "graduated" })
          else p) := by
  have h := filter_foldl_updateById
    (fun a => { a with grad_year := (if 7 ≤ month then year + 1 else year) - 1,
                       graduatedAt := some ts, status := some "graduated" })
    (fun p => decide (p.2.grad_year = (if 7 ≤ month then year + 1 else year))) store hnd
  simp only [graduateAllSeniors]
  rw [h]
  refine List.map_congr_left fun q _ => ?_
  simp only [specAcademicYear, decide_eq_true_eq]

/-- C5: `graduateAllSeniors` updates exactly the athletes whose
`grad_year` equals the academic year, setting `status` to `graduated` and
`grad_year` to one less than the academic year, and leaves every other
athlete unchanged. -/
theorem c5_graduateAllSeniors (month year : ℤ) (ts : String) (store : Store)
    (hnd : (store.map Prod.fst).Nodup) :
    (graduateAllSeniors month year ts store).1
      = store.map (fun p =>
          if p.2.grad_year = specAcademicYear month year then
            (p.1, { p.2 with grad_year := specAcademicYear month year - 1,
                             graduatedAt := some ts, status := some "graduated" })
          else p) :=
  graduate_eq_map month year ts store hnd

/-- C5 witness: in academic year 2025 (September 2024), a
`grad_year`-2025 athlete ends graduated with `grad_year` 2024, and a
`grad_year`-2026 athlete is untouched. -/
theorem c5_witness :
    (graduateAllSeniors 8 2024 "t" [(0, { name := "Sam", grad_year := 2025 }),
                                    (1, { name := "Jo", grad_year := 2026 })]).1
      = [(0, { name := "Sam", grad_year := 2024, status := some "graduated",
               graduatedAt := some "t" }),
         (1, { name := "Jo", grad_year := 2026 })] := by
  have h := c5_graduateAllSeniors 8 2024 "t"
    [(0, { name := "Sam", grad_year := 2025 }), (1, { name := "Jo", grad_year := 2026 })]
    (by decide)
  rw [h]
  decide

/-- C4 (amended): one invocation of `advanceAllAthletes` decrements
`grad_year` by exactly 1 for every athlete with `grad_year` at least the
academic year (however far above it) and leaves every athlete below the
academic year unchanged; invoking it twice at the same reference date
decrements by 2 only the athletes whose `grad_year` is at least
`academicYear + 1` — an athlete whose `grad_year` equals the academic
year is decremented once by the first call and is then below the academic
year, so the second call skips it (there is no idempotency guard, but the
selection threshold stops the boundary athlete). -/
theorem c4_advanceAllAthletes (month year : ℤ) (ts1 ts2 : String) (store : Store)
    (hnd : (store.map Prod.fst).Nodup) :
    (advanceAllAthletes month year ts1 store).1
      = store.map (fun p =>
          if specAcademicYear month year ≤ p.2.grad_year then
            (p.1, { p.2 with grad_year := p.2.grad_year - 1, advancedAt := some ts1 })
          else p)
    ∧ (advanceAllAthletes month year ts2 (advanceAllAthletes month year ts1 store).1).1
      = store.map (fun p =>
          if specAcademicYear month year + 1 ≤ p.2.grad_year then
            (p.1, { p.2 with grad_year := p.2.grad_year - 2, advancedAt := some ts2 })
          else if p.2.grad_year = specAcademicYear month year then
            (p.1, { p.2 with grad_year := p.2.grad_year - 1, advancedAt := some ts1 })
          else p) := by
  have h1 := advance_eq_map month year ts1 store hnd
  refine ⟨h1, ?_⟩
  rw [h1]
  have hfst : ∀ q : ℕ × Athlete,
      ((fun p => if specAcademicYear month year ≤ p.2.grad_year then
          (p.1, { p.2 with grad_year := p.2.grad_year - 1, advancedAt := some ts1 })
        else p) q).1 = q.1 := by
    intro q
    by_cases h : specAcademicYear month year ≤ q.2.grad_year <;> simp [h]
  have hnd2 : ((store.map (fun p =>
      if specAcademicYear month year ≤ p.2.grad_year then
        (p.1, { p.2 with grad_year := p.2.grad_year - 1, advancedAt := some ts1 })
      else p)).map Prod.fst).Nodup := by
    rw [map_fst_map_of_fst_eq _ hfst]
    exact hnd
  rw [advance_eq_map month year ts2 _ hnd2, List.map_map]
  refine List.map_congr_left fun q _ => ?_
  simp only [Function.comp_apply]
  by_cases hge : specAcademicYear month year ≤ q.2.grad_year
  · rw [if_pos hge]
    by_cases hge2 : specAcademicYear month year + 1 ≤ q.2.grad_year
    · rw [if_pos (show specAcademicYear month year ≤ q.2.grad_year - 1 by omega),
        if_pos hge2]
      simp only [Prod.mk.injEq, Athlete.mk.injEq]
      simp
      omega
    · have heq : q.2.grad_year = specAcademicYear month year := by omega
      rw [if_neg (show ¬ specAcademicYear month year ≤ q.2.grad_year - 1 by omega),
        if_neg hge2, if_pos heq]
  · rw [if_neg hge, if_neg hge,
      if_neg (show ¬ specAcademicYear month year + 1 ≤ q.2.grad_year by omega),
      if_neg (show ¬ q.2.grad_year = specAcademicYear month year by omega)]

/-- C4 witness: in academic year 2025, one call decrements a 2028 athlete
to 2027 and a senior (2025) to 2024 while a 2024 athlete is untouched;
the double call takes the 2028 athlete to 2026 (minus 2) but the senior
only to 2024 (minus 1). -/
theorem c4_witness :
    (advanceAllAthletes 8 2024 "t2"
        (advanceAllAthletes 8 2024 "t1"
          [(0, { name := "Fr", grad_year := 2028 }),
           (1, { name := "Sam", grad_year := 2025 }),
           (2, { name := "Old", grad_year := 2024 })]).1).1
      = [(0, { name := "Fr", grad_year := 2026, advancedAt := some "t2" }),
         (1, { name := "Sam", grad_year := 2024, advancedAt := some "t1" }),
         (2, { name := "Old", grad_year := 2024 })] := by
  have h := (c4_advanceAllAthletes 8 2024 "t1" "t2"
    [(0, { name := "Fr", grad_year := 2028 }),
     (1, { name := "Sam", grad_year := 2025 }),
     (2, { name := "Old", grad_year := 2024 })] (by decide)).2
  rw [h]
  decide

/-- C4 counterexample: an athlete with `grad_year` equal to the academic
year (2025 in academic year 2025) is eligible for `advanceAllAthletes`,
yet two invocations at the same reference date leave `grad_year` at 2024
— a decrement of 1, not 2, so double invocation does not decrement every
eligible athlete by 2. -/
theorem c4_counterexample :
    (advanceAllAthletes 8 2024 "t2"
        (advanceAllAthletes 8 2024 "t1" [(0, { name := "Sam", grad_year := 2025 })]).1).1
      = [(0, { name := "Sam", grad_year := 2024, advancedAt := some "t1" })]
    ∧ (2024 : ℤ) ≠ 2025 - 2 := by
  decide

/-- C6: every lifecycle operation computes the academic year as
`year + 1` when the 0-indexed month is at least 7 and `year` otherwise
(August 2024 is academic year 2025, July 2024 is 2024): the status
classification is `senior` exactly on that academic year, and the two
bulk transitions select their athletes by comparing `grad_year` against
the same function. -/
theorem c6_academicYear :
    (∀ month year : ℤ, specAcademicYear month year = if 7 ≤ month then year + 1 else year)
    ∧ specAcademicYear 7 2024 = 2025
    ∧ specAcademicYear 6 2024 = 2024
    ∧ (∀ g month year : ℤ,
        (getAthleteStatusPure g month year).isSenior = true ↔ g = specAcademicYear month year)
    ∧ (∀ (month year : ℤ) (ts : String) (store : Store),
        (advanceAllAthletes month year ts store).2.names
          = (store.filter (fun p =>
              decide (specAcademicYear month year ≤ p.2.grad_year))).map (fun p => p.2.name))
    ∧ (∀ (month year : ℤ) (ts : String) (store : Store),
        (graduateAllSeniors month year ts store).2.names
          = (store.filter (fun p =>
              decide (p.2.grad_year = specAcademicYear month year))).map
              (fun p => p.2.name)) := by
  refine ⟨fun month year => rfl, by decide, by decide, fun g month year => ?_,
    fun month year ts store => rfl, fun month year ts store => rfl⟩
  unfold getAthleteStatusPure specAcademicYear
  set ay := if 7 ≤ month then year + 1 else year with hay
  by_cases h1 : g < ay
  · rw [if_pos h1]
    simp only [AthleteStatus.isSenior]
    constructor
    · intro h
      exact absurd h (by simp)
    · intro h
      omega
  · rw [if_neg h1]
    by_cases h2 : g = ay
    · rw [if_pos h2]
      simp [AthleteStatus.isSenior, h2]
    · rw [if_neg h2]
      simp [AthleteStatus.isSenior, h2]

end Wvruns
